import Mathlib

/-!
# Verification of the Meritage Homes harvesting pipeline

A shallow embedding of the two Python modules `get_meritage_page.py` and
`get_meritage_api_links.py`.  Rendered pages are modelled as structures holding
the elements the code locates (BeautifulSoup is an external collaborator);
regular-expression searches are embedded as leftmost-match scanners over
character lists; the filesystem is a set of path strings; the browser fetch
for a child detail page is an oracle that can fail before or after the
temporary snapshot file is written.
-/

set_option autoImplicit false

/-! ## Python string helpers -/

/-- Characters the Python `\s` class and `str.strip`/`str.split` treat as
whitespace (ASCII part). -/
def isPySpace (c : Char) : Bool :=
  c == ' ' || c == '\t' || c == '\n' || c == '\r' || c == '\x0b' || c == '\x0c'

/-- The character class `[\d,]`. -/
def digitOrComma (c : Char) : Bool :=
  c.isDigit || c == ','

/-- The character class `[-\d.]` used by the coordinate pattern. -/
def coordChar (c : Char) : Bool :=
  c.isDigit || c == '-' || c == '.'

/-- Python `str.strip()`. -/
def pyStrip (s : String) : String :=
  String.mk (((s.data.dropWhile isPySpace).reverse.dropWhile isPySpace).reverse)

/-- Worker for `pyWords`: split on whitespace runs, dropping empties. -/
def pyWordsAux : List Char → List Char → List (List Char)
  | [], acc => if acc.isEmpty then [] else [acc.reverse]
  | c :: rest, acc =>
    if isPySpace c then
      if acc.isEmpty then pyWordsAux rest [] else acc.reverse :: pyWordsAux rest []
    else pyWordsAux rest (c :: acc)

/-- Python `str.split()` with no separator argument. -/
def pyWords (s : String) : List (List Char) :=
  pyWordsAux s.data []

/-- `' '.join(s.split())`, the address whitespace normalization. -/
def normSpace (s : String) : String :=
  String.mk (List.intercalate [' '] (pyWords s))

/-- Python `s.split('/')` on the character list. -/
def splitSlash : List Char → List (List Char)
  | [] => [[]]
  | c :: rest =>
    if c = '/' then [] :: splitSlash rest
    else
      match splitSlash rest with
      | [] => [[c]]
      | g :: gs => (c :: g) :: gs

/-- `url.split('/')[-1]`: the final path segment of a URL. -/
def lastSegment (s : String) : String :=
  String.mk ((splitSlash s.data).getLastD [])

/-- Python `s.startswith(pre)`. -/
def pyStartsWith (s pre : String) : Bool :=
  pre.data.isPrefixOf s.data

/-- Python `s.endswith(suf)`. -/
def pyEndsWith (s suf : String) : Bool :=
  suf.data.reverse.isPrefixOf s.data.reverse

/-- Worker for `containsSub`: does `needle` occur in `hay`? -/
def infixAux (needle : List Char) : List Char → Bool
  | [] => needle.isPrefixOf []
  | c :: rest => needle.isPrefixOf (c :: rest) || infixAux needle rest

/-- Python `needle in hay` on strings. -/
def containsSub (hay needle : String) : Bool :=
  infixAux needle.data hay.data

/-- Python `a or b` on two optional strings (an empty string is falsy). -/
def pyOr (a b : Option String) : Option String :=
  match a with
  | some s => if s.data.isEmpty then b else some s
  | none => b

/-- Python truthiness of an optional string. -/
def truthyOpt : Option String → Bool
  | some s => !s.data.isEmpty
  | none => false

/-- The site origin prepended to relative URLs throughout the repository. -/
def siteOrigin : String := "https://www.meritagehomes.com"

/-- `re.sub(r'\s+\d{5}$', '', address)`: strip a trailing postal code. -/
def stripZip (s : String) : String :=
  let r := s.data.reverse
  let d := r.take 5
  if d.length = 5 ∧ d.all Char.isDigit then
    let rest := r.drop 5
    if (rest.takeWhile isPySpace).isEmpty then s
    else String.mk (rest.dropWhile isPySpace).reverse
  else s

/-- Python `int(...)` on a stripped decimal string (optionally signed);
`none` models the `ValueError` branch. -/
def parsePyInt (s : String) : Option Int :=
  let t := (pyStrip s).data
  let digitsVal : List Char → Int := fun ds =>
    ds.foldl (fun a c => a * 10 + (c.toNat - '0'.toNat)) 0
  match t with
  | '-' :: ds =>
    if ds ≠ [] ∧ ds.all Char.isDigit then some (-(digitsVal ds)) else none
  | ds =>
    if ds ≠ [] ∧ ds.all Char.isDigit then some (digitsVal ds) else none

/-! ## Regular-expression scanners

Each Python `re.search` call is embedded as a scanner that attempts an
anchored match at every position from the left, mirroring leftmost-match
semantics.  The anchored matchers are built from three combinators. -/

/-- Consume a literal. -/
def eatLit (lit l : List Char) : Option (List Char) :=
  if lit.isPrefixOf l then some (l.drop lit.length) else none

/-- Consume `\s+` (at least one whitespace character, greedily). -/
def eatWsPlus (l : List Char) : Option (List Char) :=
  match l.takeWhile isPySpace with
  | [] => none
  | _ :: _ => some (l.dropWhile isPySpace)

/-- Consume a non-empty maximal run of characters satisfying `p`,
returning the run and the remainder. -/
def eatRun (p : Char → Bool) (l : List Char) : Option (List Char × List Char) :=
  match l.takeWhile p with
  | [] => none
  | c :: cs => some (c :: cs, l.dropWhile p)

/-- Try an anchored matcher at every position from the left. -/
def searchWith {α : Type} (att : List Char → Option α) : List Char → Option α
  | [] => none
  | c :: rest =>
    match att (c :: rest) with
    | some m => some m
    | none => searchWith att rest

/-- Anchored matcher for `\$[\d,]+` (pattern of `extract_price`). -/
def priceAt (l : List Char) : Option (List Char) :=
  match l with
  | '$' :: rest => (eatRun digitOrComma rest).map (fun pr => '$' :: pr.1)
  | _ => none

/-- Anchored matcher for `(\d+)\s*(?:Bedroom|Bed|BR)`, returning group 1. -/
def bedsAt (l : List Char) : Option (List Char) :=
  (eatRun Char.isDigit l).bind fun pr =>
    let l2 := pr.2.dropWhile isPySpace
    if ["Bedroom".data, "Bed".data, "BR".data].any (·.isPrefixOf l2) then
      some pr.1
    else none

/-- Consume the optional `(?:\.\d+)?` fraction: a dot followed by at least
one digit, or nothing. -/
def eatFrac (l : List Char) : List Char × List Char :=
  match l with
  | '.' :: r =>
    match eatRun Char.isDigit r with
    | some q => ('.' :: q.1, q.2)
    | none => ([], l)
  | _ => ([], l)

/-- Anchored matcher for `(\d+(?:\.\d+)?)\s*(?:Bathroom|Bath|BA)`,
returning group 1. -/
def bathsAt (l : List Char) : Option (List Char) :=
  (eatRun Char.isDigit l).bind fun pr =>
    let fr := eatFrac pr.2
    let l2 := fr.2.dropWhile isPySpace
    if ["Bathroom".data, "Bath".data, "BA".data].any (·.isPrefixOf l2) then
      some (pr.1 ++ fr.1)
    else none

/-- Anchored matcher for `([\d,]+)\s*sq\s*ft` (on lowercased text),
returning group 1. -/
def sqftAt (l : List Char) : Option (List Char) :=
  (eatRun digitOrComma l).bind fun pr =>
    let l2 := pr.2.dropWhile isPySpace
    (eatLit "sq".data l2).bind fun l3 =>
      let l4 := l3.dropWhile isPySpace
      (eatLit "ft".data l4).map fun _ => pr.1

/-- `extract_price` (get_meritage_page.py lines 40-45). -/
def extract_price (text : Option String) : Option String :=
  match text with
  | none => none
  | some s =>
    if s.data.isEmpty then none
    else (searchWith priceAt s.data).map String.mk

/-- `extract_beds_baths` (get_meritage_page.py lines 47-55). -/
def extract_beds_baths (text : Option String) : Option String × Option String :=
  match text with
  | none => (none, none)
  | some s =>
    if s.data.isEmpty then (none, none)
    else
      ((searchWith bedsAt s.data).map String.mk,
       (searchWith bathsAt s.data).map String.mk)

/-- `extract_sqft` (get_meritage_page.py lines 57-62). -/
def extract_sqft (text : Option String) : Option String :=
  match text with
  | none => none
  | some s =>
    if s.data.isEmpty then none
    else
      (searchWith sqftAt (s.data.map Char.toLower)).map fun g =>
        String.mk (g.filter (fun c => c != ','))

/-- Anchored matcher for `Starting at\s+(\$[\d,]+)`, returning group 1. -/
def startingAtAt (l : List Char) : Option (List Char) :=
  (eatLit "Starting at".data l).bind fun l1 =>
    (eatWsPlus l1).bind fun l2 =>
      match l2 with
      | '$' :: l3 => (eatRun digitOrComma l3).map (fun pr => '$' :: pr.1)
      | _ => none

/-- `re.search(r'Starting at\s+(\$[\d,]+)', text)` group 1. -/
def startingAtSearch (s : String) : Option String :=
  (searchWith startingAtAt s.data).map String.mk

/-- Anchored matcher for `Approx\.\s+Sq\.\s+Ft\.\s+([\d,]+)\s*-\s*([\d,]+)`. -/
def sqftRangeAt (l : List Char) : Option (List Char × List Char) :=
  (eatLit "Approx.".data l).bind fun l1 =>
    (eatWsPlus l1).bind fun l2 =>
      (eatLit "Sq.".data l2).bind fun l3 =>
        (eatWsPlus l3).bind fun l4 =>
          (eatLit "Ft.".data l4).bind fun l5 =>
            (eatWsPlus l5).bind fun l6 =>
              (eatRun digitOrComma l6).bind fun pr =>
                match pr.2.dropWhile isPySpace with
                | '-' :: l8 =>
                  (eatRun digitOrComma (l8.dropWhile isPySpace)).map
                    fun qr => (pr.1, qr.1)
                | _ => none

/-- The square-footage-range search on the full page text. -/
def sqftRangeSearch (s : String) : Option (String × String) :=
  (searchWith sqftRangeAt s.data).map fun pr => (String.mk pr.1, String.mk pr.2)

/-- Anchored matcher for `Bed\s+(\d+)`, returning group 1. -/
def bedNumAt (l : List Char) : Option (List Char) :=
  (eatLit "Bed".data l).bind fun l1 =>
    (eatWsPlus l1).bind fun l2 =>
      (eatRun Char.isDigit l2).map (·.1)

/-- `re.search(r'Bed\s+(\d+)', text)` group 1. -/
def bedNumSearch (s : String) : Option String :=
  (searchWith bedNumAt s.data).map String.mk

/-- Anchored matcher for `Bath\s+(\d+)`, returning group 1. -/
def bathNumAt (l : List Char) : Option (List Char) :=
  (eatLit "Bath".data l).bind fun l1 =>
    (eatWsPlus l1).bind fun l2 =>
      (eatRun Char.isDigit l2).map (·.1)

/-- `re.search(r'Bath\s+(\d+)', text)` group 1. -/
def bathNumSearch (s : String) : Option String :=
  (searchWith bathNumAt s.data).map String.mk

/-- Anchored matcher for `Approx\.\s+([\d,]+)\s+sq\.\s+ft\.`, group 1. -/
def approxSqftAt (l : List Char) : Option (List Char) :=
  (eatLit "Approx.".data l).bind fun l1 =>
    (eatWsPlus l1).bind fun l2 =>
      (eatRun digitOrComma l2).bind fun pr =>
        (eatWsPlus pr.2).bind fun l4 =>
          (eatLit "sq.".data l4).bind fun l5 =>
            (eatWsPlus l5).bind fun l6 =>
              (eatLit "ft.".data l6).map fun _ => pr.1

/-- `re.search(r'Approx\.\s+([\d,]+)\s+sq\.\s+ft\.', text)` group 1. -/
def approxSqftSearch (s : String) : Option String :=
  (searchWith approxSqftAt s.data).map String.mk

/-- Anchored matcher for `daddr=([-\d.]+),([-\d.]+)`. -/
def daddrAt (l : List Char) : Option (List Char × List Char) :=
  (eatLit "daddr=".data l).bind fun l1 =>
    (eatRun coordChar l1).bind fun pr =>
      match pr.2 with
      | ',' :: l3 => (eatRun coordChar l3).map fun qr => (pr.1, qr.1)
      | _ => none

/-- The coordinate search on a map link href. -/
def daddrSearch (s : String) : Option (String × String) :=
  (searchWith daddrAt s.data).map fun pr => (String.mk pr.1, String.mk pr.2)

/-! ## Data model

The nested record schema produced by `fetch_page` (lines 92-124). -/

/-- The structured address inside `location` (never populated by the code). -/
structure StructAddress where
  city : Option String
  state : Option String
  market : Option String

/-- The `location` block. -/
structure Location where
  latitude : Option String
  longitude : Option String
  address : StructAddress

/-- The community `details` block. -/
structure Details where
  price_range : Option String
  sqft_range : Option String
  bed_range : Option String
  bath_range : Option String
  stories_range : Option String
  community_count : Nat

/-- A nearby place (distance/rating/reviews stay `None`). -/
structure NearbyPlace where
  name : String
  category : Option String
  distance : Option String
  rating : Option String
  reviews : Option String

/-- A move-in-ready home record. -/
structure Homesite where
  address : Option String
  name : Option String
  plan : Option String
  id : String
  price : Option String
  beds : Option String
  baths : Option String
  sqft : Option String
  status : String
  image_url : Option String
  url : Option String
  latitude : Option String
  longitude : Option String
  overview : Option String
  images : List String

/-- An included feature of a home plan. -/
structure Feature where
  description : String
  section_index : Nat

/-- A floor-plan image entry. -/
structure FloorplanImage where
  name : String
  image_url : String

/-- The `details` block of a home plan. -/
structure PlanDetails where
  price : Option String
  beds : Option String
  baths : Option String
  half_baths : Option String
  sqft : Option String
  status : String
  image_url : Option String

/-- A home-plan record. -/
structure Homeplan where
  name : Option String
  url : Option String
  details : PlanDetails
  floorplan_images : List FloorplanImage
  includedFeatures : List Feature

/-- The root community record. -/
structure Community where
  timestamp : String
  name : Option String
  status : Option String
  url : String
  price_from : Option String
  address : Option String
  phone : Option String
  description : Option String
  images : List String
  location : Location
  details : Details
  amenities : List String
  homeplans : List Homeplan
  homesites : List Homesite
  nearbyplaces : List NearbyPlace
  collections : List String

/-! ## Feature bucketing (lines 393-427)

A feature section is `none` when the `div` has no `ul`; otherwise it carries
the raw text of each `li`.  `totalFeatures` counts every `li` of every
section that has a `ul`; the assignment loop appends only items whose
stripped text is non-empty. -/

/-- First pass: `total_features` (lines 399-405). -/
def totalFeatures (secs : List (Option (List String))) : Nat :=
  secs.foldl
    (fun t s =>
      match s with
      | some lis => t + lis.length
      | none => t) 0

/-- `features_per_section = total_features // 4 if total_features > 0 else 0`
(line 408). -/
def featuresPerSection (secs : List (Option (List String))) : Nat :=
  if totalFeatures secs > 0 then totalFeatures secs / 4 else 0

/-- Inner loop over the `li` items of one `ul` (lines 417-427).  The state is
`(current_section, feature_count)`; the result carries the appended features
and the final state. -/
def featureLoop (q : Nat) : List String → Nat → Nat → List Feature × Nat × Nat
  | [], cs, cnt => ([], cs, cnt)
  | li :: rest, cs, cnt =>
    let t := pyStrip li
    if t.data.isEmpty then featureLoop q rest cs cnt
    else
      let cs' := if (cs + 1) * q ≤ cnt + 1 then min (cs + 1) 3 else cs
      let r := featureLoop q rest cs' (cnt + 1)
      ({ description := t, section_index := cs } :: r.1, r.2)

/-- Outer loop over the feature sections (lines 414-427). -/
def sectionLoop (q : Nat) :
    List (Option (List String)) → Nat → Nat → List Feature × Nat × Nat
  | [], cs, cnt => ([], cs, cnt)
  | none :: rest, cs, cnt => sectionLoop q rest cs cnt
  | some lis :: rest, cs, cnt =>
    let r := featureLoop q lis cs cnt
    let r2 := sectionLoop q rest r.2.1 r.2.2
    (r.1 ++ r2.1, r2.2)

/-- The `includedFeatures` list computed for one plan page. -/
def includedFeaturesOf (secs : List (Option (List String))) : List Feature :=
  (sectionLoop (featuresPerSection secs) secs 0 0).1

/-- The flat list of `li` items of the `ul`-bearing sections, in page order
(the items both passes of the bucketing loop traverse). -/
def flattenSecs : List (Option (List String)) → List String
  | [] => []
  | none :: rest => flattenSecs rest
  | some lis :: rest => lis ++ flattenSecs rest

/-! ## Page model

Structures holding the elements that BeautifulSoup lookups return.  An
`Option` is `none` when the corresponding `find` returns no element (or the
attribute is missing). -/

/-- An `img`-like element with its `src` / `data-csrc` attributes. -/
structure ImgAttrs where
  src : Option String
  dataCsrc : Option String

/-- The `div#community-driving-directions--location` element. -/
structure LocDiv where
  dataLat : Option String
  dataLong : Option String
  addressP : Option String

/-- A labeled column: an `h3` heading and its next sibling `span` text. -/
structure LabeledCol where
  h3 : Option String
  sibSpan : Option String

/-- A `div.multicol` nearby-places group. -/
structure Multicol where
  h5 : Option String
  plainSpans : List String

/-- The `div.mid` inside a quick-move-in card. -/
structure MidDiv where
  p : Option String
  h3Text : Option String
  h3Href : Option String
  topDetails : Option String
  bottomDetails : Option String

/-- One `div.qmi-vertical` container; `mid` is `some` exactly when both the
`content` and `mid` divs are present. -/
structure Qmi where
  mid : Option MidDiv
  image : Option ImgAttrs

/-- One `li.slick-slide.orbit-slide` on a detail page. -/
structure Slide where
  hiddenLazy : Option String
  orbitImg : Option ImgAttrs

/-- The central article of a homesite detail page: the Google-maps link href
(when a `a.plain` with a maps href exists) and the paragraph texts. -/
structure ArticleSec where
  mapHref : Option String
  paragraphs : List String

/-- A rendered homesite detail page. -/
structure SitePage where
  article : Option ArticleSec
  slides : List Slide

/-- The `div.content` of a floor-plan card. -/
structure PlanContent where
  h3Text : Option String
  h3Href : Option String

/-- The `div.image` of a floor-plan card: either a `text/lazyload` script
(carrying the result of the `<img ... src="...">` regex on its content) or a
plain `img` fallback. -/
inductive PlanImage where
  | lazyScript (srcMatch : Option String)
  | plainImg (img : Option ImgAttrs)

/-- One `div.floorplan-vertical` container. -/
structure PlanDiv where
  content : Option PlanContent
  topDetails : Option String
  bottomDetails : Option String
  image : Option PlanImage

/-- A rendered floor-plan detail page. -/
structure PlanPage where
  featureSections : List (Option (List String))
  cols : List LabeledCol
  tabsPanelImg : Option ImgAttrs

/-- A rendered community page.  `firstSlide` is `none` when there are no
slides, `some none` when the first slide has no `span[data-lazy]`. -/
structure CommunityPage where
  overviewH1 : Option String
  pageText : String
  metaDescription : Option (Option String)
  firstSlide : Option (Option ImgAttrs)
  locDirections : Option LocDiv
  columns : List LabeledCol
  multicols : List Multicol
  qmis : Option (List Qmi)
  planDivs : List PlanDiv

/-! ## Filesystem and fetch model -/

/-- The outcome of a child detail-page fetch: a rendered page, an exception
before the temporary snapshot is written (for example a navigation failure),
or an exception after it is written (for example a parse failure). -/
inductive Fetch (α : Type) where
  | ok (page : α)
  | failBefore
  | failAfter

/-- The filesystem: the set of existing file paths. -/
abbrev FS := List String

/-- `if os.path.exists(p): os.remove(p)`. -/
def removeIfExists (fs : FS) (p : String) : FS :=
  fs.filter (fun q => q != p)

/-- `open(p, 'w')` followed by a write. -/
def writeFile (fs : FS) (p : String) : FS :=
  if p ∈ fs then fs else fs ++ [p]

/-- The derived JSON output path of a community URL (line 70). -/
def jsonFileOf (url : String) : String :=
  "data/meritagehomes/json/meritage_" ++ lastSegment url ++ ".json"

/-- The retained HTML snapshot path of a community URL (line 85). -/
def htmlFileOf (url : String) : String :=
  "data/meritagehomes/html/meritage_" ++ lastSegment url ++ ".html"

/-- The temporary snapshot path of a homesite detail page (line 270). -/
def siteHtmlFileOf (url : String) : String :=
  "data/meritagehomes/html/meritage_homesite_" ++ lastSegment url ++ ".html"

/-- The temporary snapshot path of a plan detail page (line 382). -/
def planHtmlFileOf (url : String) : String :=
  "data/meritagehomes/html/meritage_" ++ lastSegment url ++ ".html"

/-! ## Record assembly -/

/-- Lines 156-167: the first-image extraction.  Note that the `append` sits
inside the relative-URL branch, so an already-absolute `src` adds nothing. -/
def firstImageOf (firstSlide : Option (Option ImgAttrs)) : List String :=
  match firstSlide with
  | some (some sp) =>
    match pyOr sp.src sp.dataCsrc with
    | some src =>
      if !src.data.isEmpty then
        if !pyStartsWith src "http" then [siteOrigin ++ src] else []
      else []
    | none => []
  | _ => []

/-- Lines 188-212: scan labeled columns for an exact heading, returning the
sibling span of the first matching column (the loop breaks on the first
matching heading, even when it has no span). -/
def findLabeled : List LabeledCol → String → Option String
  | [], _ => none
  | c :: rest, label =>
    match c.h3 with
    | some t =>
      if pyStrip t = label then c.sibSpan.map pyStrip
      else findLabeled rest label
    | none => findLabeled rest label

/-- Lines 432-438 / 442-447: the plan-page variant keeps scanning when the
matching heading has no sibling span (the `break` sits inside `if span:`). -/
def findLabeledPlan : List LabeledCol → String → Option String
  | [], _ => none
  | c :: rest, label =>
    match c.h3 with
    | some t =>
      if pyStrip t = label then
        match c.sibSpan with
        | some sp => some (pyStrip sp)
        | none => findLabeledPlan rest label
      else findLabeledPlan rest label
    | none => findLabeledPlan rest label

/-- Lines 215-226: nearby places grouped under their `h5` heading. -/
def nearbyOf (groups : List Multicol) : List NearbyPlace :=
  groups.flatMap fun g =>
    g.plainSpans.map fun t =>
      { name := pyStrip t, category := g.h5.map pyStrip,
        distance := none, rating := none, reviews := none }

/-- Lines 232-264: build one homesite record from its card (enrichment not
yet applied). `none` when the `content` or `mid` div is missing. -/
def buildHomesite (index : Nat) (q : Qmi) : Option Homesite :=
  q.mid.map fun mid =>
    let rawAddress := mid.p.map pyStrip
    let address := rawAddress.bind fun r =>
      if r.data.isEmpty then none else some (normSpace r)
    { address := address
      name := address.bind fun a =>
        if a.data.isEmpty then none else some (stripZip a)
      plan := mid.h3Text.map pyStrip
      id := Nat.repr (index + 1)
      price := mid.topDetails.map pyStrip
      beds := mid.bottomDetails.bind fun bd =>
        (bedNumSearch bd).map (· ++ "bd")
      baths := mid.bottomDetails.bind fun bd =>
        (bathNumSearch bd).map (· ++ "ba")
      sqft := mid.bottomDetails.bind fun bd =>
        (approxSqftSearch bd).map (· ++ " ft²")
      status := "Available"
      image_url :=
        match q.image with
        | some img =>
          (pyOr img.src img.dataCsrc).map fun s =>
            if !s.data.isEmpty && !pyStartsWith s "http" then siteOrigin ++ s
            else s
        | none => none
      url := mid.h3Href.map (siteOrigin ++ ·)
      latitude := none
      longitude := none
      overview := none
      images := [] }

/-- Lines 294-300: the overview paragraph chooser. -/
def overviewOf (ps : List String) : Option String :=
  (ps.find? fun p =>
    !(pyStartsWith (pyStrip p) "Plan #")
      && !(containsSub p "Estimated Completion")
      && !(containsSub p "Home Address")).map pyStrip

/-- Lines 311-318: the fallback branch of the gallery loop.  The `append`
sits inside the normalization branch, so an absolute or placeholder `src`
adds nothing here. -/
def slideFallback (sl : Slide) : List String :=
  match sl.orbitImg with
  | some img =>
    match pyOr img.src img.dataCsrc with
    | some s =>
      if !s.data.isEmpty && !pyStartsWith s "http"
          && !pyEndsWith s "meritageLoadingCommunityHero.gif" then
        [siteOrigin ++ s]
      else []
    | none => []
  | none => []

/-- Lines 302-318: the homesite gallery loop. -/
def siteImages : List Slide → List String
  | [] => []
  | sl :: rest =>
    (match sl.hiddenLazy with
      | some lz =>
        if lz.data.isEmpty then slideFallback sl
        else if !pyStartsWith lz "http" then [siteOrigin ++ lz] else [lz]
      | none => slideFallback sl) ++ siteImages rest

/-- Lines 266-333: enrichment of one homesite.  Returns the filesystem, the
(possibly enriched) record and the number of fetches performed.  Both the
failure branches and the success branch delete the temporary snapshot. -/
def enrichHomesite (oracle : String → Fetch SitePage) (fs : FS) (hs : Homesite) :
    FS × Homesite × Nat :=
  if truthyOpt hs.url then
    let u := hs.url.getD ""
    let file := siteHtmlFileOf u
    match oracle u with
    | .failBefore => (removeIfExists fs file, hs, 1)
    | .failAfter => (removeIfExists (writeFile fs file) file, hs, 1)
    | .ok page =>
      let coords := page.article.bind fun a => a.mapHref.bind daddrSearch
      let ov := page.article.bind fun a => overviewOf a.paragraphs
      let hs' := { hs with
        latitude := match coords with | some pr => some pr.1 | none => hs.latitude
        longitude := match coords with | some pr => some pr.2 | none => hs.longitude
        overview := match ov with | some o => some o | none => hs.overview
        images := hs.images ++ siteImages page.slides }
      (removeIfExists (writeFile fs file) file, hs', 1)
  else (fs, hs, 0)

/-- The enriched record itself (independent of the filesystem). -/
def enrichedSite (oracle : String → Fetch SitePage) (hs : Homesite) : Homesite :=
  (enrichHomesite oracle [] hs).2.1

/-- Lines 229-335: the quick-move-in loop over the enumerated containers. -/
def qmiLoop (oracle : String → Fetch SitePage) :
    List (Nat × Qmi) → FS → FS × List Homesite × Nat
  | [], fs => (fs, [], 0)
  | (i, q) :: rest, fs =>
    match buildHomesite i q with
    | none => qmiLoop oracle rest fs
    | some hs =>
      let r1 := enrichHomesite oracle fs hs
      let r2 := qmiLoop oracle rest r1.1
      (r2.1, r1.2.1 :: r2.2.1, r1.2.2 + r2.2.2)

/-- The homesites section of the assembly. -/
def processQmis (oracle : String → Fetch SitePage) (fs : FS) (qmis : List Qmi) :
    FS × List Homesite × Nat :=
  qmiLoop oracle qmis.enum fs

/-- Lines 356-376: the primary image of a floor-plan card. -/
def planImageUrl : Option PlanImage → Option String
  | none => none
  | some (.lazyScript m) =>
    m.map fun src =>
      if !src.data.isEmpty && !pyStartsWith src "http" then siteOrigin ++ src
      else src
  | some (.plainImg oimg) =>
    match oimg with
    | some img =>
      (pyOr img.src img.dataCsrc).map fun s =>
        if !s.data.isEmpty && !pyStartsWith s "http" then siteOrigin ++ s
        else s
    | none => none

/-- Lines 338-376: build one home-plan record from its card. -/
def buildHomeplan (p : PlanDiv) : Homeplan :=
  { name := (p.content.bind (·.h3Text)).map pyStrip
    url := (p.content.bind (·.h3Href)).map (siteOrigin ++ ·)
    details :=
      { price := p.topDetails.map pyStrip
        beds := p.bottomDetails.bind fun bd => (bedNumSearch bd).map (· ++ "bd")
        baths := p.bottomDetails.bind fun bd => (bathNumSearch bd).map (· ++ "ba")
        half_baths := none
        sqft := p.bottomDetails.bind fun bd =>
          (approxSqftSearch bd).map (· ++ " ft²")
        status := "Actively selling"
        image_url := planImageUrl p.image }
    floorplan_images := []
    includedFeatures := [] }

/-- Lines 450-458: the ordinal floor label. -/
def floorName (i : Nat) : String :=
  if i = 1 then "1st Floor Floorplan"
  else if i = 2 then "2nd Floor Floorplan"
  else if i = 3 then "3rd Floor Floorplan"
  else Nat.repr i ++ "th Floor Floorplan"

/-- Lines 449-471: one floor-plan image per story, sourced from the first
tabbed panel. -/
def floorImages (stories : Nat) (tab : Option ImgAttrs) : List FloorplanImage :=
  (List.range' 1 stories).filterMap fun i =>
    match tab with
    | some img =>
      (pyOr img.src img.dataCsrc).bind fun s =>
        if !s.data.isEmpty then some { name := floorName i, image_url := s }
        else none
    | none => none

/-- Lines 440-474: scan for the `Stories` column; a non-numeric value
continues the scan, a numeric one generates the floor images and breaks. -/
def storiesLoop (tab : Option ImgAttrs) : List LabeledCol → List FloorplanImage
  | [] => []
  | c :: rest =>
    match c.h3 with
    | some t =>
      if pyStrip t = "Stories" then
        match c.sibSpan with
        | some sp =>
          match parsePyInt (pyStrip sp) with
          | some n => floorImages n.toNat tab
          | none => storiesLoop tab rest
        | none => storiesLoop tab rest
      else storiesLoop tab rest
    | none => storiesLoop tab rest

/-- Lines 378-486: enrichment of one home plan. -/
def enrichHomeplan (oracle : String → Fetch PlanPage) (fs : FS) (hp : Homeplan) :
    FS × Homeplan × Nat :=
  if truthyOpt hp.url then
    let u := hp.url.getD ""
    let file := planHtmlFileOf u
    match oracle u with
    | .failBefore => (removeIfExists fs file, hp, 1)
    | .failAfter => (removeIfExists (writeFile fs file) file, hp, 1)
    | .ok page =>
      let hp' := { hp with
        includedFeatures := includedFeaturesOf page.featureSections
        details := { hp.details with
          half_baths :=
            match findLabeledPlan page.cols "Half Bathrooms" with
            | some v => some v
            | none => hp.details.half_baths }
        floorplan_images :=
          hp.floorplan_images ++ storiesLoop page.tabsPanelImg page.cols }
      (removeIfExists (writeFile fs file) file, hp', 1)
  else (fs, hp, 0)

/-- The enriched plan record itself (independent of the filesystem). -/
def enrichedPlan (oracle : String → Fetch PlanPage) (hp : Homeplan) : Homeplan :=
  (enrichHomeplan oracle [] hp).2.1

/-- Lines 337-489: the floor-plan loop. -/
def planLoop (oracle : String → Fetch PlanPage) :
    List PlanDiv → FS → FS × List Homeplan × Nat
  | [], fs => (fs, [], 0)
  | p :: rest, fs =>
    let r1 := enrichHomeplan oracle fs (buildHomeplan p)
    let r2 := planLoop oracle rest r1.1
    (r2.1, r1.2.1 :: r2.2.1, r1.2.2 + r2.2.2)

/-- The home-plans section of the assembly. -/
def processPlans (oracle : String → Fetch PlanPage) (fs : FS) (plans : List PlanDiv) :
    FS × List Homeplan × Nat :=
  planLoop oracle plans fs

/-- Lines 493-505: the pool of candidate fallback images. -/
def availableImages (plans : List Homeplan) (sites : List Homesite) : List String :=
  (plans.flatMap fun p =>
    match p.details.image_url with
    | some x => if x.data.isEmpty then [] else [x]
    | none => []) ++
  (sites.flatMap fun s =>
    (match s.image_url with
      | some x => if x.data.isEmpty then [] else [x]
      | none => []) ++ s.images)

/-- Lines 491-510: replace an empty top-level image list with one image from
the candidate pool; `pick` models the index chosen by `random.choice`. -/
def imageFallback (pick : Nat) (c : Community) : Community :=
  if c.images.isEmpty then
    let avail := availableImages c.homeplans c.homesites
    if avail.isEmpty then c
    else { c with images := [avail.getD (pick % avail.length) ""] }
  else c

/-- External inputs of one `fetch_page` run: the clock, the rendered pages,
the two child-fetch oracles and the random choice. -/
structure Env where
  now : String
  pageOf : String → CommunityPage
  siteOracle : String → Fetch SitePage
  planOracle : String → Fetch PlanPage
  pick : Nat

/-- Lines 90-510: assemble the full community record from a rendered page,
threading the filesystem through the child enrichments and counting child
fetches. -/
def assembleCommunity (env : Env) (url : String) (page : CommunityPage) (fs : FS) :
    FS × Community × Nat :=
  let r1 := processQmis env.siteOracle fs (page.qmis.getD [])
  let r2 := processPlans env.planOracle r1.1 page.planDivs
  let c : Community :=
    { timestamp := env.now
      name := page.overviewH1.map pyStrip
      status := none
      url := url
      price_from := (startingAtSearch page.pageText).map ("From " ++ ·)
      address := page.locDirections.bind fun d => d.addressP.map pyStrip
      phone := none
      description := page.metaDescription.map fun content =>
        pyStrip (content.getD "")
      images := firstImageOf page.firstSlide
      location :=
        { latitude := page.locDirections.bind (·.dataLat)
          longitude := page.locDirections.bind (·.dataLong)
          address := { city := none, state := none, market := none } }
      details :=
        { price_range := (startingAtSearch page.pageText).map ("From " ++ ·)
          sqft_range := (sqftRangeSearch page.pageText).map fun pr =>
            pr.1 ++ " - " ++ pr.2
          bed_range := findLabeled page.columns "Bedrooms"
          bath_range := findLabeled page.columns "Full Bathrooms"
          stories_range := findLabeled page.columns "Stories"
          community_count := 1 }
      amenities := []
      homeplans := r2.2.1
      homesites := r1.2.1
      nearbyplaces := nearbyOf page.multicols
      collections := [] }
  (r2.1, imageFallback env.pick c, r1.2.2 + r2.2.2)

/-- Lines 64-527: `fetch_page`.  Returns the filesystem, the produced record
(`none` when skipped) and the total number of page fetches performed. -/
def fetch_page (env : Env) (fs : FS) (url : String) : FS × Option Community × Nat :=
  let jsonFile := jsonFileOf url
  if jsonFile ∈ fs then (fs, none, 0)
  else
    let fs1 := writeFile fs (htmlFileOf url)
    let r := assembleCommunity env url (env.pageOf url) fs1
    (writeFile r.1 jsonFile, some r.2.1, r.2.2 + 1)

/-- Lines 575-582: the batch orchestrator loop over the frontier, counting
total fetches. -/
def runBatch (env : Env) (urls : List String) (fs : FS) : FS × Nat :=
  urls.foldl
    (fun acc u =>
      let r := fetch_page env acc.1 u
      (r.1, acc.2 + r.2.2)) (fs, 0)

/-- get_meritage_api_links.py lines 58-66: collect city links, normalizing
relative hrefs and deduplicating in first-seen order. -/
def get_city_links (elements : List (Option String)) : List String :=
  elements.foldl
    (fun acc h =>
      match h with
      | none => acc
      | some href =>
        let href := if !pyStartsWith href "http" then siteOrigin ++ href else href
        if href ∈ acc then acc else acc ++ [href]) []

/-! ## Concrete fixtures used by witnesses and counterexamples -/

/-- A community page with nothing on it. -/
def emptyCommunityPage : CommunityPage :=
  { overviewH1 := none, pageText := "", metaDescription := none,
    firstSlide := none, locDirections := none, columns := [],
    multicols := [], qmis := none, planDivs := [] }

/-- An environment whose fetches all fail before the snapshot is written. -/
def envTrivial : Env :=
  { now := "2026-01-01T00:00:00", pageOf := fun _ => emptyCommunityPage,
    siteOracle := fun _ => .failBefore, planOracle := fun _ => .failBefore,
    pick := 0 }

/-- A homesite detail-fetch oracle that always fails after the snapshot. -/
def siteOracleFail : String → Fetch SitePage := fun _ => .failAfter

/-- A plan detail-fetch oracle that always fails after the snapshot. -/
def planOracleFail : String → Fetch PlanPage := fun _ => .failAfter

/-- A built homesite with a detail-page URL and no enrichment. -/
def sampleHomesite : Homesite :=
  { address := none, name := none, plan := none, id := "1", price := none,
    beds := none, baths := none, sqft := none, status := "Available",
    image_url := none, url := some "https://www.meritagehomes.com/x/site-1",
    latitude := none, longitude := none, overview := none, images := [] }

/-- A built home plan with a detail-page URL and no enrichment. -/
def sampleHomeplan : Homeplan :=
  { name := none, url := some "https://www.meritagehomes.com/x/plan-1",
    details := { price := none, beds := none, baths := none,
                 half_baths := none, sqft := none,
                 status := "Actively selling", image_url := none },
    floorplan_images := [], includedFeatures := [] }

/-- A quick-move-in container whose `content`/`mid` div is missing. -/
def qmiNoMid : Qmi := { mid := none, image := none }

/-- A minimal `mid` div. -/
def midEmpty : MidDiv :=
  { p := none, h3Text := none, h3Href := none,
    topDetails := none, bottomDetails := none }

/-- A quick-move-in container that does produce a homesite. -/
def qmiPlain : Qmi := { mid := some midEmpty, image := none }

/-- An image element carrying an already-absolute `src`. -/
def imgAbsolute : ImgAttrs :=
  { src := some "http://cdn.example.com/a.jpg", dataCsrc := none }

/-- An image element carrying a relative `src`. -/
def imgRelative : ImgAttrs := { src := some "/a.jpg", dataCsrc := none }

/-- A home plan whose primary image is `"A"`. -/
def planA : Homeplan :=
  { name := none, url := none,
    details := { price := none, beds := none, baths := none,
                 half_baths := none, sqft := none,
                 status := "Actively selling", image_url := some "A" },
    floorplan_images := [], includedFeatures := [] }

/-- A homesite whose primary image is `"B"`. -/
def siteB : Homesite :=
  { address := none, name := none, plan := none, id := "1", price := none,
    beds := none, baths := none, sqft := none, status := "Available",
    image_url := some "B", url := none, latitude := none, longitude := none,
    overview := none, images := [] }

/-- A community with no top-level images, one plan image `"A"` and one
homesite image `"B"`. -/
def commAB : Community :=
  { timestamp := "t", name := none, status := none, url := "u",
    price_from := none, address := none, phone := none, description := none,
    images := [],
    location := { latitude := none, longitude := none,
                  address := { city := none, state := none, market := none } },
    details := { price_range := none, sqft_range := none, bed_range := none,
                 bath_range := none, stories_range := none,
                 community_count := 1 },
    amenities := [], homeplans := [planA], homesites := [siteB],
    nearbyplaces := [], collections := [] }

/-! ## Helper lemmas -/

/-- A non-empty string has non-empty character data. -/
theorem ne_empty_data {u : String} (h : u ≠ "") : u.data.isEmpty = false := by
  cases u with
  | mk d =>
    cases d with
    | nil => exact absurd rfl h
    | cons c cs => rfl

/-- Unfolded form of the skip branch of `fetch_page`. -/
theorem fetch_page_skip (env : Env) (fs : FS) (url : String)
    (h : jsonFileOf url ∈ fs) : fetch_page env fs url = (fs, none, 0) := by
  simp [fetch_page, h]

/-- Folding the orchestrator over already-materialized URLs changes nothing. -/
theorem runBatch_skip_aux (env : Env) :
    ∀ (urls : List String) (fs : FS) (n : Nat),
      (∀ u ∈ urls, jsonFileOf u ∈ fs) →
      urls.foldl
        (fun acc u =>
          let r := fetch_page env acc.1 u
          (r.1, acc.2 + r.2.2)) (fs, n) = (fs, n) := by
  intro urls
  induction urls with
  | nil => intro fs n _; rfl
  | cons u rest ih =>
    intro fs n hall
    have h1 : jsonFileOf u ∈ fs := hall u (List.mem_cons_self u rest)
    simp only [List.foldl_cons, fetch_page_skip env fs u h1]
    exact ih fs n fun v hv => hall v (List.mem_cons_of_mem u hv)

/-- The record returned by homesite enrichment does not depend on the
filesystem. -/
theorem enrichHomesite_snd (oracle : String → Fetch SitePage) (fs : FS)
    (hs : Homesite) :
    (enrichHomesite oracle fs hs).2.1 = enrichedSite oracle hs := by
  unfold enrichedSite enrichHomesite
  by_cases h : truthyOpt hs.url = true
  · simp only [h, if_true]
    rcases horacle : oracle (hs.url.getD "") with page | _ | _ <;>
      simp [horacle]
  · simp [h]

/-- The record returned by plan enrichment does not depend on the
filesystem. -/
theorem enrichHomeplan_snd (oracle : String → Fetch PlanPage) (fs : FS)
    (hp : Homeplan) :
    (enrichHomeplan oracle fs hp).2.1 = enrichedPlan oracle hp := by
  unfold enrichedPlan enrichHomeplan
  by_cases h : truthyOpt hp.url = true
  · simp only [h, if_true]
    rcases horacle : oracle (hp.url.getD "") with page | _ | _ <;>
      simp [horacle]
  · simp [h]

/-- Enrichment never changes the id of a homesite. -/
theorem enrichedSite_id (oracle : String → Fetch SitePage) (hs : Homesite) :
    (enrichedSite oracle hs).id = hs.id := by
  unfold enrichedSite enrichHomesite
  by_cases h : truthyOpt hs.url = true
  · simp only [h, if_true]
    rcases horacle : oracle (hs.url.getD "") with page | _ | _ <;>
      simp [horacle]
  · simp [h]

/-- The homesite list produced by the quick-move-in loop. -/
theorem qmiLoop_sites (oracle : String → Fetch SitePage) :
    ∀ (l : List (Nat × Qmi)) (fs : FS),
      (qmiLoop oracle l fs).2.1 =
        l.filterMap fun p => (buildHomesite p.1 p.2).map (enrichedSite oracle) := by
  intro l
  induction l with
  | nil => intro fs; rfl
  | cons p rest ih =>
    intro fs
    rcases p with ⟨i, q⟩
    rcases hb : buildHomesite i q with _ | hs
    · simp [qmiLoop, hb, ih]
    · simp [qmiLoop, hb, ih, enrichHomesite_snd]

/-- The home-plan list produced by the floor-plan loop. -/
theorem planLoop_plans (oracle : String → Fetch PlanPage) :
    ∀ (l : List PlanDiv) (fs : FS),
      (planLoop oracle l fs).2.1 =
        l.map fun p => enrichedPlan oracle (buildHomeplan p) := by
  intro l
  induction l with
  | nil => intro fs; rfl
  | cons p rest ih =>
    intro fs
    simp [planLoop, ih, enrichHomeplan_snd]

/-- The id assigned to an emitted homesite is its container ordinal. -/
theorem buildHomesite_id (i : Nat) (q : Qmi) (hs : Homesite)
    (h : buildHomesite i q = some hs) : hs.id = Nat.repr (i + 1) := by
  rcases hm : q.mid with _ | mid
  · rw [buildHomesite, hm] at h; cases h
  · rw [buildHomesite, hm] at h
    cases h
    rfl

/-- `imageFallback` only touches the image list: details are preserved. -/
theorem imageFallback_details (k : Nat) (c : Community) :
    (imageFallback k c).details = c.details := by
  unfold imageFallback
  split
  · simp only []
    split
    · rfl
    · rfl
  · rfl

/-- `imageFallback` preserves the amenities list. -/
theorem imageFallback_amenities (k : Nat) (c : Community) :
    (imageFallback k c).amenities = c.amenities := by
  unfold imageFallback
  split
  · simp only []
    split
    · rfl
    · rfl
  · rfl

/-- `imageFallback` preserves the collections list. -/
theorem imageFallback_collections (k : Nat) (c : Community) :
    (imageFallback k c).collections = c.collections := by
  unfold imageFallback
  split
  · simp only []
    split
    · rfl
    · rfl
  · rfl

/-! ## Claim C2 -/

/-- C2: when the derived JSON output for a URL already exists, `fetch_page`
returns immediately — no fetch, no session, no write — and a batch over a
fully-materialized frontier performs zero fetches and leaves the filesystem
unchanged. -/
theorem claim2_materialized_skip (env : Env) (fs : FS) (url : String)
    (urls : List String) (h : jsonFileOf url ∈ fs)
    (hall : ∀ u ∈ urls, jsonFileOf u ∈ fs) :
    fetch_page env fs url = (fs, none, 0) ∧ runBatch env urls fs = (fs, 0) :=
  ⟨fetch_page_skip env fs url h, runBatch_skip_aux env urls fs 0 hall⟩

/-- Witness for C2 at a one-URL frontier whose output is materialized. -/
theorem claim2_witness :
    fetch_page envTrivial [jsonFileOf "https://u/a"] "https://u/a"
        = ([jsonFileOf "https://u/a"], none, 0) ∧
    runBatch envTrivial ["https://u/a"] [jsonFileOf "https://u/a"]
        = ([jsonFileOf "https://u/a"], 0) :=
  claim2_materialized_skip envTrivial [jsonFileOf "https://u/a"] "https://u/a"
    ["https://u/a"] (List.mem_cons_self _ _)
    (by
      intro u hu
      rw [List.mem_singleton] at hu
      subst hu
      exact List.mem_cons_self _ _)

/-! ## Claim C3 -/

/-- C3: ten non-empty features give `features_per_section = 2` and the
section-index sequence `[0,0,1,1,2,2,3,3,3,3]` in appearance order. -/
theorem claim3_ten_features :
    featuresPerSection [some ["a","b","c","d","e","f","g","h","i","j"]] = 2 ∧
    (includedFeaturesOf [some ["a","b","c","d","e","f","g","h","i","j"]]).map
        (·.section_index) = [0,0,1,1,2,2,3,3,3,3] ∧
    (includedFeaturesOf [some ["a","b","c","d","e","f","g","h","i","j"]]).map
        (·.description) = ["a","b","c","d","e","f","g","h","i","j"] := by
  decide

/-! ## Claim C6 -/

/-- C6: URL normalization is not uniform.  The city-link collector prepends
the origin to a relative href and passes an absolute href through, but the
first-image extraction (lines 157-167) and the homesite gallery fallback
(lines 311-318) drop an already-absolute `src` because the append statement
sits inside the relative-URL branch. -/
theorem claim6_absolute_dropped :
    get_city_links [some "/state/tx/austin/plan"]
        = ["https://www.meritagehomes.com/state/tx/austin/plan"] ∧
    get_city_links [some "http://cdn.example.com/a.jpg"]
        = ["http://cdn.example.com/a.jpg"] ∧
    firstImageOf (some (some imgRelative))
        = ["https://www.meritagehomes.com/a.jpg"] ∧
    firstImageOf (some (some imgAbsolute)) = [] ∧
    slideFallback { hiddenLazy := none, orbitImg := some imgAbsolute } = [] := by
  decide

/-! ## Claim C8 -/

/-- C8: for a child entity with a non-null detail URL, the temporary
snapshot file is absent from the filesystem when the enrichment block
finishes, on the success path and on both failure paths alike. -/
theorem claim8_snapshot_cleanup (siteO : String → Fetch SitePage)
    (planO : String → Fetch PlanPage) (fs fs2 : FS) (hs : Homesite)
    (hp : Homeplan) (u v : String) (hu : hs.url = some u) (hu2 : u ≠ "")
    (hv : hp.url = some v) (hv2 : v ≠ "") :
    siteHtmlFileOf u ∉ (enrichHomesite siteO fs hs).1 ∧
    planHtmlFileOf v ∉ (enrichHomeplan planO fs2 hp).1 := by
  constructor
  · rcases horacle : siteO u with page | _ | _ <;>
      simp [enrichHomesite, hu, truthyOpt, ne_empty_data hu2, horacle,
        removeIfExists, List.mem_filter]
  · rcases horacle : planO v with page | _ | _ <;>
      simp [enrichHomeplan, hv, truthyOpt, ne_empty_data hv2, horacle,
        removeIfExists, List.mem_filter]

/-- Witness for C8: enrichment of a concrete homesite and plan, with the
snapshot files initially present, leaves neither snapshot on disk. -/
theorem claim8_witness :
    siteHtmlFileOf "https://www.meritagehomes.com/x/site-1" ∉
      (enrichHomesite siteOracleFail
        [siteHtmlFileOf "https://www.meritagehomes.com/x/site-1"]
        sampleHomesite).1 ∧
    planHtmlFileOf "https://www.meritagehomes.com/x/plan-1" ∉
      (enrichHomeplan planOracleFail [] sampleHomeplan).1 :=
  claim8_snapshot_cleanup siteOracleFail planOracleFail
    [siteHtmlFileOf "https://www.meritagehomes.com/x/site-1"] []
    sampleHomesite sampleHomeplan _ _ rfl (by decide) rfl (by decide)

/-! ## Claim C9 -/

/-- Mapping ids over the per-container records: each emitted record carries
the ordinal of its source container. -/
theorem ids_pointwise (oracle : String → Fetch SitePage) :
    ∀ l : List (Nat × Qmi),
      ((l.filterMap fun p => (buildHomesite p.1 p.2).map
          (enrichedSite oracle)).map (·.id))
        = l.filterMap fun p =>
            (buildHomesite p.1 p.2).map fun _ => Nat.repr (p.1 + 1) := by
  intro l
  induction l with
  | nil => rfl
  | cons p rest ih =>
    rcases hb : buildHomesite p.1 p.2 with _ | hs
    · simp [List.filterMap_cons, hb, ih]
    · simp [List.filterMap_cons, hb, ih, enrichedSite_id,
        buildHomesite_id p.1 p.2 hs hb]

/-- Every element of `enumFrom` has its payload in the underlying list. -/
theorem snd_mem_of_mem_enumFrom {α : Type} :
    ∀ (l : List α) (n : Nat) (p : Nat × α), p ∈ l.enumFrom n → p.2 ∈ l := by
  intro l
  induction l with
  | nil => intro n p h; cases h
  | cons a rest ih =>
    intro n p h
    rcases List.mem_cons.mp h with h1 | h1
    · subst h1; exact List.mem_cons_self _ _
    · exact List.mem_cons_of_mem _ (ih (n + 1) p h1)

/-- When every container emits, the ordinal filterMap is a plain map. -/
theorem qmi_ids_all (qmis : List Qmi) (h : ∀ q ∈ qmis, q.mid.isSome) :
    ∀ l : List (Nat × Qmi), (∀ p ∈ l, p.2 ∈ qmis) →
      (l.filterMap fun p =>
          (buildHomesite p.1 p.2).map fun _ => Nat.repr (p.1 + 1))
        = l.map fun p => Nat.repr (p.1 + 1) := by
  intro l
  induction l with
  | nil => intro _; rfl
  | cons p rest ih =>
    intro hmem
    have hq : p.2.mid.isSome := h p.2 (hmem p (List.mem_cons_self _ _))
    rcases hm : p.2.mid with _ | mid
    · rw [hm] at hq; cases hq
    · have hbs : ∃ hs, buildHomesite p.1 p.2 = some hs := by
        rw [buildHomesite, hm]; exact ⟨_, rfl⟩
      rcases hbs with ⟨hs, hbs⟩
      simp [List.filterMap_cons, hbs,
        ih fun r hr => hmem r (List.mem_cons_of_mem _ hr)]

/-- C9 (amended): each emitted homesite's id is the 1-based ordinal of its
source container among all `qmi-vertical` containers; when every container
emits a homesite this is the gap-free sequence "1", "2", …. -/
theorem claim9_container_ordinals (oracle : String → Fetch SitePage)
    (fs : FS) (qmis : List Qmi) :
    ((processQmis oracle fs qmis).2.1).map (·.id)
        = (qmis.enum.filterMap fun p =>
            (buildHomesite p.1 p.2).map fun _ => Nat.repr (p.1 + 1)) ∧
    ((∀ q ∈ qmis, q.mid.isSome) →
      ((processQmis oracle fs qmis).2.1).map (·.id)
          = (List.range qmis.length).map fun i => Nat.repr (i + 1)) := by
  have h1 : ((processQmis oracle fs qmis).2.1).map (·.id)
      = (qmis.enum.filterMap fun p =>
          (buildHomesite p.1 p.2).map fun _ => Nat.repr (p.1 + 1)) := by
    rw [show (processQmis oracle fs qmis).2.1 =
        qmis.enum.filterMap fun p =>
          (buildHomesite p.1 p.2).map (enrichedSite oracle) from
      qmiLoop_sites oracle qmis.enum fs]
    exact ids_pointwise oracle qmis.enum
  refine ⟨h1, fun hmid => ?_⟩
  rw [h1, qmi_ids_all qmis hmid qmis.enum
    (fun p hp => snd_mem_of_mem_enumFrom qmis 0 p hp)]
  rw [show (qmis.enum.map fun p => Nat.repr (p.1 + 1))
      = (qmis.enum.map Prod.fst).map (fun i => Nat.repr (i + 1)) from by
    rw [List.map_map]; rfl]
  rw [List.enum_map_fst]

/-- C9 counterexample: with a first container that lacks its `mid` div, the
single emitted homesite has id "2", not the claimed emitted-ordinal "1". -/
theorem claim9_cex :
    ((processQmis (fun _ => Fetch.failBefore) [] [qmiNoMid, qmiPlain]).2.1).map
        (·.id) = ["2"] ∧ (["2"] : List String) ≠ ["1"] := by
  decide

/-- Witness for C9: when every container emits, ids are "1", "2", …. -/
theorem claim9_witness :
    (∀ q ∈ [qmiPlain, qmiPlain], q.mid.isSome) ∧
    ((processQmis (fun _ => Fetch.failBefore) [] [qmiPlain, qmiPlain]).2.1).map
        (·.id)
      = (List.range ([qmiPlain, qmiPlain] : List Qmi).length).map
          fun i => Nat.repr (i + 1) :=
  ⟨by decide,
   (claim9_container_ordinals (fun _ => Fetch.failBefore) []
      [qmiPlain, qmiPlain]).2 (by decide)⟩

/-! ## Claim C10 -/

/-- The assembled record's constant fields. -/
theorem assemble_const_fields (env : Env) (url : String)
    (page : CommunityPage) (fs : FS) :
    (assembleCommunity env url page fs).2.1.details.community_count = 1 ∧
    (assembleCommunity env url page fs).2.1.amenities = [] ∧
    (assembleCommunity env url page fs).2.1.collections = [] := by
  unfold assembleCommunity
  simp only []
  exact ⟨by rw [imageFallback_details], by rw [imageFallback_amenities],
    by rw [imageFallback_collections]⟩

/-- C10: every community record produced by `fetch_page` has
`community_count = 1` and empty `amenities` and `collections`; these are set
at record creation and no assembly or enrichment step modifies them. -/
theorem claim10_constant_fields (env : Env) (fs : FS) (url : String)
    (c : Community) (h : (fetch_page env fs url).2.1 = some c) :
    c.details.community_count = 1 ∧ c.amenities = [] ∧ c.collections = [] := by
  by_cases hskip : jsonFileOf url ∈ fs
  · rw [fetch_page_skip env fs url hskip] at h; cases h
  · simp only [fetch_page, if_neg hskip, Option.some.injEq] at h
    exact h ▸ assemble_const_fields env url (env.pageOf url)
      (writeFile fs (htmlFileOf url))

/-- Witness for C10 at a concrete empty page and empty filesystem. -/
theorem claim10_witness :
    (assembleCommunity envTrivial "https://u/a" (envTrivial.pageOf "https://u/a")
        (writeFile [] (htmlFileOf "https://u/a"))).2.1.details.community_count
      = 1 ∧
    (assembleCommunity envTrivial "https://u/a" (envTrivial.pageOf "https://u/a")
        (writeFile [] (htmlFileOf "https://u/a"))).2.1.amenities = [] ∧
    (assembleCommunity envTrivial "https://u/a" (envTrivial.pageOf "https://u/a")
        (writeFile [] (htmlFileOf "https://u/a"))).2.1.collections = [] :=
  claim10_constant_fields envTrivial [] "https://u/a" _ (by
    simp [fetch_page, jsonFileOf])

/-! ## Claim C1 -/

/-- C1: the child loops are failure-contained.  The homesite list is exactly
the per-container records (each container with a `mid` contributes exactly
one record, whatever its oracle outcome), the plan list is one record per
card, and a failing child fetch leaves the built record unchanged — its
enrichment fields stay null/empty — without affecting any sibling. -/
theorem claim1_failure_containment (siteO : String → Fetch SitePage)
    (planO : String → Fetch PlanPage) (fs fs2 : FS) (qmis : List Qmi)
    (plans : List PlanDiv) :
    (processQmis siteO fs qmis).2.1
        = (qmis.enum.filterMap fun p =>
            (buildHomesite p.1 p.2).map (enrichedSite siteO)) ∧
    (processPlans planO fs2 plans).2.1
        = (plans.map fun p => enrichedPlan planO (buildHomeplan p)) ∧
    (∀ hs : Homesite,
      (siteO (hs.url.getD "") = .failBefore ∨
        siteO (hs.url.getD "") = .failAfter) →
      enrichedSite siteO hs = hs) ∧
    (∀ hp : Homeplan,
      (planO (hp.url.getD "") = .failBefore ∨
        planO (hp.url.getD "") = .failAfter) →
      enrichedPlan planO hp = hp) := by
  refine ⟨qmiLoop_sites siteO qmis.enum fs, planLoop_plans planO plans fs2,
    ?_, ?_⟩
  · intro hs hfail
    unfold enrichedSite enrichHomesite
    by_cases h : truthyOpt hs.url = true
    · rcases hfail with h1 | h1 <;> simp [h, h1]
    · simp [h]
  · intro hp hfail
    unfold enrichedPlan enrichHomeplan
    by_cases h : truthyOpt hp.url = true
    · rcases hfail with h1 | h1 <;> simp [h, h1]
    · simp [h]

/-- Witness for C1: a concrete failing oracle still yields one record per
container and leaves the built record unenriched. -/
theorem claim1_witness :
    (processQmis siteOracleFail [] [qmiPlain]).2.1
        = ([qmiPlain] : List Qmi).enum.filterMap
            (fun p => (buildHomesite p.1 p.2).map (enrichedSite siteOracleFail)) ∧
    enrichedSite siteOracleFail sampleHomesite = sampleHomesite :=
  ⟨(claim1_failure_containment siteOracleFail planOracleFail [] [] [qmiPlain]
      []).1,
   (claim1_failure_containment siteOracleFail planOracleFail [] [] [qmiPlain]
      []).2.2.1 sampleHomesite (Or.inr rfl)⟩

/-! ## Claim C5 -/

/-- Every candidate fallback image is a plan primary image or a homesite
image (primary or gallery). -/
theorem mem_availableImages {x : String} {plans : List Homeplan}
    {sites : List Homesite} (h : x ∈ availableImages plans sites) :
    (∃ p ∈ plans, p.details.image_url = some x) ∨
    (∃ s ∈ sites, s.image_url = some x ∨ x ∈ s.images) := by
  unfold availableImages at h
  rcases List.mem_append.mp h with h1 | h1
  · left
    rcases List.mem_flatMap.mp h1 with ⟨p, hp, hx⟩
    refine ⟨p, hp, ?_⟩
    rcases him : p.details.image_url with _ | y
    · rw [him] at hx; cases hx
    · rw [him] at hx
      by_cases hy : y.data.isEmpty = true
      · simp [hy] at hx
      · simp [hy] at hx
        rw [hx]
  · right
    rcases List.mem_flatMap.mp h1 with ⟨s, hsmem, hx⟩
    refine ⟨s, hsmem, ?_⟩
    rcases List.mem_append.mp hx with h2 | h2
    · left
      rcases him : s.image_url with _ | y
      · rw [him] at h2; cases h2
      · rw [him] at h2
        by_cases hy : y.data.isEmpty = true
        · simp [hy] at h2
        · simp [hy] at h2
          rw [h2]
    · right; exact h2

/-- C5: with an empty top-level image list, the final image list is one
element of the plan/homesite image union when that pool is non-empty, and
stays empty when the pool is empty; in the concrete A/B instance the result
is exactly `["A"]` or `["B"]`, whatever the random pick. -/
theorem claim5_image_fallback (c : Community) (k : Nat) (h : c.images = []) :
    (availableImages c.homeplans c.homesites = [] →
      (imageFallback k c).images = []) ∧
    (availableImages c.homeplans c.homesites ≠ [] →
      ∃ x, (imageFallback k c).images = [x] ∧
        ((∃ p ∈ c.homeplans, p.details.image_url = some x) ∨
         (∃ s ∈ c.homesites, s.image_url = some x ∨ x ∈ s.images))) ∧
    (∀ m, (imageFallback m commAB).images = ["A"] ∨
      (imageFallback m commAB).images = ["B"]) := by
  have hemp : c.images.isEmpty = true := by rw [h]; rfl
  refine ⟨?_, ?_, ?_⟩
  · intro ha
    simp [imageFallback, hemp, ha, h]
  · intro ha
    have hlen : 0 < (availableImages c.homeplans c.homesites).length :=
      List.length_pos.mpr ha
    have hmod : k % (availableImages c.homeplans c.homesites).length
        < (availableImages c.homeplans c.homesites).length :=
      Nat.mod_lt _ hlen
    have hne : (availableImages c.homeplans c.homesites).isEmpty = false := by
      rcases he : availableImages c.homeplans c.homesites with _ | ⟨a, rest⟩
      · exact absurd he ha
      · rfl
    refine ⟨(availableImages c.homeplans c.homesites).getD
      (k % (availableImages c.homeplans c.homesites).length) "", ?_, ?_⟩
    · simp [imageFallback, hemp, hne]
    · exact mem_availableImages (by
        rw [List.getD_eq_getElem _ _ hmod]
        exact List.getElem_mem hmod)
  · intro m
    have havail : availableImages commAB.homeplans commAB.homesites
        = ["A", "B"] := by decide
    have h1 : (imageFallback m commAB).images
        = [(["A", "B"] : List String).getD (m % 2) ""] := by
      simp [imageFallback, show commAB.images = [] from rfl, havail]
    rcases Nat.mod_two_eq_zero_or_one m with h0 | h0
    · left; rw [h1, h0]; rfl
    · right; rw [h1, h0]; rfl

/-- Witness for C5 at the concrete A/B community. -/
theorem claim5_witness :
    availableImages commAB.homeplans commAB.homesites ≠ [] ∧
    (∃ x, (imageFallback 0 commAB).images = [x] ∧
      ((∃ p ∈ commAB.homeplans, p.details.image_url = some x) ∨
       (∃ s ∈ commAB.homesites, s.image_url = some x ∨ x ∈ s.images))) :=
  ⟨by decide, (claim5_image_fallback commAB 0 rfl).2.1 (by decide)⟩

/-! ## Claim C4: bucketing analysis -/

/-- One step of the section counter, in closed form: with a positive bucket
width `q`, after `i` emitted features the counter is `min (i / q) 3`. -/
theorem stepArith (q i : Nat) (hq : 0 < q) :
    (if (min (i / q) 3 + 1) * q ≤ i + 1 then min (min (i / q) 3 + 1) 3
     else min (i / q) 3) = min ((i + 1) / q) 3 := by
  rcases Nat.lt_or_ge (i / q) 3 with h3 | h3
  · have hmin : min (i / q) 3 = i / q := min_eq_left (Nat.le_of_lt h3)
    rw [hmin]
    by_cases hc : (i / q + 1) * q ≤ i + 1
    · rw [if_pos hc]
      have hdm := Nat.div_add_mod i q
      have hml : i % q < q := Nat.mod_lt i hq
      have hs : (i / q + 1) * q = q * (i / q) + q := by ring
      rw [hs] at hc
      have hmul : q * (i / q + 1) = q * (i / q) + q := by ring
      have hi1 : i + 1 = q * (i / q + 1) := by omega
      rw [hi1, Nat.mul_div_cancel_left _ hq]
    · rw [if_neg hc]
      have h1 : (i / q) * q ≤ i + 1 :=
        le_trans (Nat.div_mul_le_self i q) (Nat.le_succ i)
      have h2 : i + 1 < (i / q + 1) * q := lt_of_not_le hc
      rw [Nat.div_eq_of_lt_le h1 h2]
      exact hmin.symm
  · have h1 : min (i / q) 3 = 3 := min_eq_right h3
    have h2 : 3 ≤ (i + 1) / q :=
      le_trans h3 (Nat.div_le_div_right (Nat.le_succ i))
    rw [h1, min_eq_right h2]
    split
    · simp
    · rfl

/-- The feature loop distributes over list append. -/
theorem featureLoop_append (q : Nat) :
    ∀ (l1 l2 : List String) (cs cnt : Nat),
      featureLoop q (l1 ++ l2) cs cnt =
        ((featureLoop q l1 cs cnt).1 ++
          (featureLoop q l2 (featureLoop q l1 cs cnt).2.1
            (featureLoop q l1 cs cnt).2.2).1,
         (featureLoop q l2 (featureLoop q l1 cs cnt).2.1
            (featureLoop q l1 cs cnt).2.2).2) := by
  intro l1
  induction l1 with
  | nil => intro l2 cs cnt; rfl
  | cons li rest ih =>
    intro l2 cs cnt
    by_cases ht : (pyStrip li).data.isEmpty = true
    · simp [featureLoop, ht, ih]
    · simp [featureLoop, ht, ih]

/-- The section loop equals the feature loop on the flat item list. -/
theorem sectionLoop_flatten (q : Nat) :
    ∀ (secs : List (Option (List String))) (cs cnt : Nat),
      sectionLoop q secs cs cnt = featureLoop q (flattenSecs secs) cs cnt := by
  intro secs
  induction secs with
  | nil => intro cs cnt; rfl
  | cons s rest ih =>
    intro cs cnt
    rcases s with _ | lis
    · simp [sectionLoop, flattenSecs, ih]
    · simp [sectionLoop, flattenSecs, ih, featureLoop_append]

/-- The first pass counts exactly the flat items. -/
theorem totalFeatures_flatten :
    ∀ secs : List (Option (List String)),
      totalFeatures secs = (flattenSecs secs).length := by
  have aux : ∀ (secs : List (Option (List String))) (t : Nat),
      secs.foldl
        (fun t s =>
          match s with
          | some lis => t + lis.length
          | none => t) t = t + (flattenSecs secs).length := by
    intro secs
    induction secs with
    | nil => intro t; simp [flattenSecs]
    | cons s rest ih =>
      intro t
      rcases s with _ | lis
      · simp [flattenSecs, ih]
      · simp [flattenSecs, ih, List.length_append]
        omega
  intro secs
  unfold totalFeatures
  rw [aux]
  simp

/-- Closed form of the feature loop for a positive bucket width: feature
number `k` (0-based, counted from `i` already emitted) lands in bucket
`min ((i + k) / q) 3`. -/
theorem featureLoop_run (q : Nat) (hq : 0 < q) :
    ∀ (l : List String) (i : Nat),
      (∀ li ∈ l, (pyStrip li).data.isEmpty = false) →
      ((featureLoop q l (min (i / q) 3) i).1.map (·.section_index)
          = (List.range l.length).map fun k => min ((i + k) / q) 3) ∧
      (featureLoop q l (min (i / q) 3) i).2
          = (min ((i + l.length) / q) 3, i + l.length) := by
  intro l
  induction l with
  | nil =>
    intro i _
    constructor
    · rfl
    · simp [featureLoop]
  | cons li rest ih =>
    intro i hall
    have ht : (pyStrip li).data.isEmpty = false :=
      hall li (List.mem_cons_self _ _)
    have hrest : ∀ x ∈ rest, (pyStrip x).data.isEmpty = false :=
      fun x hx => hall x (List.mem_cons_of_mem _ hx)
    have hstep := stepArith q i hq
    obtain ⟨ih1, ih2⟩ := ih (i + 1) hrest
    constructor
    · simp only [featureLoop, ht, Bool.false_eq_true, if_false, hstep,
        List.map_cons, ih1, List.length_cons]
      rw [List.range_succ_eq_map, List.map_cons, List.map_map]
      congr 1
      apply List.map_congr_left
      intro a _
      simp only [Function.comp_apply, Nat.succ_eq_add_one]
      have harith : i + 1 + a = i + (a + 1) := by omega
      rw [harith]
    · simp only [featureLoop, ht, Bool.false_eq_true, if_false, hstep, ih2,
        List.length_cons]
      have harith : i + 1 + rest.length = i + (rest.length + 1) := by omega
      rw [harith]

/-- Unconditionally, the loop's bucket indices stay in range and are
non-decreasing. -/
theorem featureLoop_mono (q : Nat) :
    ∀ (l : List String) (cs cnt : Nat), cs ≤ 3 →
      (∀ f ∈ (featureLoop q l cs cnt).1,
        cs ≤ f.section_index ∧ f.section_index ≤ 3) ∧
      ((featureLoop q l cs cnt).1.map (·.section_index)).Pairwise (· ≤ ·) := by
  intro l
  induction l with
  | nil =>
    intro cs cnt _
    exact ⟨fun f hf => absurd hf (List.not_mem_nil f), List.Pairwise.nil⟩
  | cons li rest ih =>
    intro cs cnt hcs
    by_cases ht : (pyStrip li).data.isEmpty = true
    · simpa [featureLoop, ht] using ih cs cnt hcs
    · have hle : cs ≤ (if (cs + 1) * q ≤ cnt + 1 then min (cs + 1) 3 else cs) ∧
          (if (cs + 1) * q ≤ cnt + 1 then min (cs + 1) 3 else cs) ≤ 3 := by
        constructor <;> split <;> omega
      obtain ⟨ihb, ihp⟩ := ih
        (if (cs + 1) * q ≤ cnt + 1 then min (cs + 1) 3 else cs) (cnt + 1) hle.2
      constructor
      · intro f hf
        simp only [featureLoop, ht, Bool.false_eq_true, if_false,
          List.mem_cons] at hf
        rcases hf with rfl | hf
        · exact ⟨le_refl _, hcs⟩
        · have := ihb f hf
          exact ⟨le_trans hle.1 this.1, this.2⟩
      · simp only [featureLoop, ht, Bool.false_eq_true, if_false,
          List.map_cons]
        rw [List.pairwise_cons]
        constructor
        · intro x hx
          rcases List.mem_map.mp hx with ⟨f, hf, rfl⟩
          exact le_trans hle.1 (ihb f hf).1
        · exact ihp

/-- Counting an interval inside `range n`. -/
theorem countP_range_band (a b : Nat) :
    ∀ n : Nat,
      (List.range n).countP (fun k => decide (a ≤ k) && decide (k < b))
        = min b n - min a n := by
  intro n
  induction n with
  | zero => simp
  | succ n ih =>
    rw [List.range_succ, List.countP_append, ih]
    simp only [List.countP_cons, List.countP_nil]
    by_cases h1 : a ≤ n <;> by_cases h2 : n < b <;>
      simp [h1, h2] <;> omega

/-- Bucket membership for the first three buckets. -/
theorem bucket_mem (q j k : Nat) (hq : 0 < q) (hj : j < 3) :
    min (k / q) 3 = j ↔ j * q ≤ k ∧ k < (j + 1) * q := by
  constructor
  · intro h
    have hdiv : k / q = j := by
      rcases Nat.lt_or_ge (k / q) 3 with h3 | h3
      · rw [min_eq_left (Nat.le_of_lt h3)] at h; exact h
      · rw [min_eq_right h3] at h; omega
    constructor
    · rw [← hdiv]; exact Nat.div_mul_le_self k q
    · have hlt : k / q < j + 1 := by omega
      exact (Nat.div_lt_iff_lt_mul hq).mp hlt
  · rintro ⟨h1, h2⟩
    have hdiv : k / q = j := Nat.div_eq_of_lt_le h1 h2
    rw [hdiv, min_eq_left (by omega)]

/-- Bucket membership for the last bucket. -/
theorem bucket3_mem (q k : Nat) (hq : 0 < q) :
    min (k / q) 3 = 3 ↔ 3 * q ≤ k := by
  constructor
  · intro h
    have h3 : 3 ≤ k / q := by
      rcases Nat.lt_or_ge (k / q) 3 with h3 | h3
      · rw [min_eq_left (Nat.le_of_lt h3)] at h; omega
      · exact h3
    exact (Nat.le_div_iff_mul_le hq).mp h3
  · intro h
    exact min_eq_right ((Nat.le_div_iff_mul_le hq).mpr h)

/-- Each of the first three buckets holds exactly `q` of the first `n`
positions. -/
theorem count_bucket_lt (q n j : Nat) (hq : 0 < q) (hj : j < 3)
    (hn : (j + 1) * q ≤ n) :
    (List.range n).countP (fun k => min (k / q) 3 == j) = q := by
  have hcong : (List.range n).countP (fun k => min (k / q) 3 == j)
      = (List.range n).countP
          (fun k => decide (j * q ≤ k) && decide (k < (j + 1) * q)) :=
    List.countP_congr fun k _ => by
      simp only [beq_iff_eq, Bool.and_eq_true, decide_eq_true_eq]
      exact bucket_mem q j k hq hj
  have h1 : j * q ≤ n :=
    le_trans (Nat.mul_le_mul_right q (by omega : j ≤ j + 1)) hn
  rw [hcong, countP_range_band, min_eq_left hn, min_eq_left h1,
    Nat.succ_mul, Nat.add_sub_cancel_left]

/-- The last bucket holds the remaining `n - 3q` positions. -/
theorem count_bucket_top (q n : Nat) (hq : 0 < q) (hn : 3 * q ≤ n) :
    (List.range n).countP (fun k => min (k / q) 3 == 3) = n - 3 * q := by
  have hcong : (List.range n).countP (fun k => min (k / q) 3 == 3)
      = (List.range n).countP
          (fun k => decide (3 * q ≤ k) && decide (k < n)) :=
    List.countP_congr fun k hk => by
      have hk' : k < n := List.mem_range.mp hk
      simp only [beq_iff_eq, Bool.and_eq_true, decide_eq_true_eq]
      constructor
      · intro h; exact ⟨(bucket3_mem q k hq).mp h, hk'⟩
      · rintro ⟨h1, _⟩; exact (bucket3_mem q k hq).mpr h1
  rw [hcong, countP_range_band, min_self, min_eq_left hn]

/-- C4 (amended): section indices always lie in 0..3 and are non-decreasing
in appearance order; and when every item is non-empty and there are at least
4 items (so the bucket width `total // 4` is positive), each of the first
three buckets receives exactly `total / 4` features and the last bucket
absorbs the remainder.  (For 1-3 items the bucket-size clause fails, see the
counterexample.) -/
theorem claim4_bucket_invariant :
    (∀ secs : List (Option (List String)),
      (∀ f ∈ includedFeaturesOf secs, f.section_index ≤ 3) ∧
      ((includedFeaturesOf secs).map (·.section_index)).Pairwise (· ≤ ·)) ∧
    (∀ secs : List (Option (List String)),
      (∀ li ∈ flattenSecs secs, (pyStrip li).data.isEmpty = false) →
      4 ≤ totalFeatures secs →
      (includedFeaturesOf secs).length = totalFeatures secs ∧
      (∀ j, j < 3 →
        (includedFeaturesOf secs).countP (fun f => f.section_index == j)
          = totalFeatures secs / 4) ∧
      (includedFeaturesOf secs).countP (fun f => f.section_index == 3)
        = totalFeatures secs - 3 * (totalFeatures secs / 4)) := by
  constructor
  · intro secs
    have := featureLoop_mono (featuresPerSection secs) (flattenSecs secs) 0 0
      (by omega)
    rw [includedFeaturesOf, sectionLoop_flatten]
    exact ⟨fun f hf => (this.1 f hf).2, this.2⟩
  · intro secs h1 h2
    have htot : totalFeatures secs = (flattenSecs secs).length :=
      totalFeatures_flatten secs
    have hq : 0 < totalFeatures secs / 4 :=
      (Nat.le_div_iff_mul_le (by omega)).mpr (by omega)
    have hfps : featuresPerSection secs = totalFeatures secs / 4 := by
      unfold featuresPerSection
      rw [if_pos (by omega)]
    have run := featureLoop_run (totalFeatures secs / 4) hq (flattenSecs secs)
      0 h1
    have hfeats : includedFeaturesOf secs
        = (featureLoop (totalFeatures secs / 4) (flattenSecs secs)
            (min (0 / (totalFeatures secs / 4)) 3) 0).1 := by
      rw [includedFeaturesOf, hfps, sectionLoop_flatten]
      congr 1
      simp
    have hmap : (includedFeaturesOf secs).map (·.section_index)
        = (List.range (flattenSecs secs).length).map
            fun k => min (k / (totalFeatures secs / 4)) 3 := by
      rw [hfeats, run.1]
      apply List.map_congr_left
      intro k _
      rw [Nat.zero_add]
    have h4 : 4 * (totalFeatures secs / 4) ≤ totalFeatures secs := by
      have hms := Nat.div_mul_le_self (totalFeatures secs) 4
      omega
    refine ⟨?_, ?_, ?_⟩
    · have hlen := congrArg List.length hmap
      rw [List.length_map, List.length_map, List.length_range] at hlen
      rw [hlen, htot]
    · intro j hj
      have e1 : (includedFeaturesOf secs).countP (fun f => f.section_index == j)
          = ((includedFeaturesOf secs).map (·.section_index)).countP (· == j) := by
        rw [List.countP_map]
        rfl
      rw [e1, hmap, List.countP_map]
      have hn : (j + 1) * (totalFeatures secs / 4)
          ≤ (flattenSecs secs).length := by
        have hj4 : (j + 1) * (totalFeatures secs / 4)
            ≤ 4 * (totalFeatures secs / 4) :=
          Nat.mul_le_mul_right _ (by omega)
        omega
      exact count_bucket_lt (totalFeatures secs / 4)
        (flattenSecs secs).length j hq hj hn
    · have e1 : (includedFeaturesOf secs).countP (fun f => f.section_index == 3)
          = ((includedFeaturesOf secs).map (·.section_index)).countP (· == 3) := by
        rw [List.countP_map]
        rfl
      rw [e1, hmap, List.countP_map]
      have hn : 3 * (totalFeatures secs / 4) ≤ (flattenSecs secs).length := by
        have hj4 : 3 * (totalFeatures secs / 4)
            ≤ 4 * (totalFeatures secs / 4) :=
          Nat.mul_le_mul_right _ (by omega)
        omega
      have hct := count_bucket_top (totalFeatures secs / 4)
        (flattenSecs secs).length hq hn
      exact hct.trans (by rw [htot])

/-- C4 counterexample: with a single feature, the first bucket receives one
feature although `floor(total_features / 4) = 0`, so the per-bucket size
clause of the claim fails as stated. -/
theorem claim4_cex :
    (includedFeaturesOf [some ["a"]]).countP (fun f => f.section_index == 0)
        = 1 ∧
    totalFeatures [some ["a"]] / 4 = 0 := by
  decide

/-- Witness for C4 at five non-empty features. -/
theorem claim4_witness :
    (includedFeaturesOf [some ["a","b","c","d","e"]]).length
        = totalFeatures [some ["a","b","c","d","e"]] ∧
    (includedFeaturesOf [some ["a","b","c","d","e"]]).countP
        (fun f => f.section_index == 0)
      = totalFeatures [some ["a","b","c","d","e"]] / 4 ∧
    (includedFeaturesOf [some ["a","b","c","d","e"]]).countP
        (fun f => f.section_index == 3)
      = totalFeatures [some ["a","b","c","d","e"]]
          - 3 * (totalFeatures [some ["a","b","c","d","e"]] / 4) :=
  ⟨(claim4_bucket_invariant.2 [some ["a","b","c","d","e"]] (by decide)
      (by decide)).1,
   (claim4_bucket_invariant.2 [some ["a","b","c","d","e"]] (by decide)
      (by decide)).2.1 0 (by omega),
   (claim4_bucket_invariant.2 [some ["a","b","c","d","e"]] (by decide)
      (by decide)).2.2⟩

/-! ## Claim C7: extractor soundness -/

/-- A successful `isPrefixOf` test yields an append decomposition. -/
theorem isPrefixOf_ex :
    ∀ a b : List Char, a.isPrefixOf b = true → ∃ t, b = a ++ t := by
  intro a
  induction a with
  | nil => intro b _; exact ⟨b, rfl⟩
  | cons c cs ih =>
    intro b h
    cases b with
    | nil => simp [List.isPrefixOf] at h
    | cons d ds =>
      simp only [List.isPrefixOf, Bool.and_eq_true, beq_iff_eq] at h
      obtain ⟨t, ht⟩ := ih ds h.2
      exact ⟨t, by rw [h.1, ht]; rfl⟩

/-- Soundness of the literal eater. -/
theorem eatLit_sound {lit l r : List Char} (h : eatLit lit l = some r) :
    l = lit ++ r := by
  unfold eatLit at h
  by_cases hp : lit.isPrefixOf l = true
  · rw [if_pos hp] at h
    obtain ⟨t, ht⟩ := isPrefixOf_ex lit l hp
    cases h
    subst ht
    rw [List.drop_left]
  · rw [if_neg hp] at h; cases h

/-- Soundness of the whitespace-plus eater. -/
theorem eatWsPlus_sound {l r : List Char} (h : eatWsPlus l = some r) :
    ∃ ws, l = ws ++ r ∧ ws ≠ [] ∧ ∀ x ∈ ws, isPySpace x = true := by
  unfold eatWsPlus at h
  rcases htw : l.takeWhile isPySpace with _ | ⟨c, cs⟩
  · rw [htw] at h; cases h
  · rw [htw] at h
    cases h
    refine ⟨l.takeWhile isPySpace, ?_, ?_,
      fun x hx => List.mem_takeWhile_imp hx⟩
    · exact (List.takeWhile_append_dropWhile isPySpace l).symm
    · rw [htw]; simp

/-- Soundness of the run eater. -/
theorem eatRun_sound {p : Char → Bool} {l g r : List Char}
    (h : eatRun p l = some (g, r)) :
    l = g ++ r ∧ g ≠ [] ∧ ∀ x ∈ g, p x = true := by
  unfold eatRun at h
  rcases htw : l.takeWhile p with _ | ⟨c, cs⟩
  · rw [htw] at h; cases h
  · rw [htw] at h
    simp only [Option.some.injEq, Prod.mk.injEq] at h
    obtain ⟨hg, hr⟩ := h
    subst hg
    subst hr
    refine ⟨?_, by simp, fun x hx => ?_⟩
    · rw [← htw]
      exact (List.takeWhile_append_dropWhile p l).symm
    · exact List.mem_takeWhile_imp (htw ▸ hx)

/-- A successful scan splits the input at the match position. -/
theorem searchWith_sound {α : Type} (att : List Char → Option α) :
    ∀ {s : List Char} {m : α},
      searchWith att s = some m → ∃ a r, s = a ++ r ∧ att r = some m := by
  intro s
  induction s with
  | nil => intro m h; simp [searchWith] at h
  | cons c rest ih =>
    intro m h
    rw [searchWith] at h
    rcases hat : att (c :: rest) with _ | m'
    · rw [hat] at h
      obtain ⟨a, r, har, hattr⟩ := ih h
      exact ⟨c :: a, r, by rw [har]; rfl, hattr⟩
    · rw [hat] at h
      cases h
      exact ⟨[], c :: rest, rfl, hat⟩

/-- Soundness of the price matcher: a match exhibits a dollar sign followed
by a digit-or-comma. -/
theorem priceAt_sound {l m : List Char} (h : priceAt l = some m) :
    ∃ c b, l = '$' :: c :: b ∧ digitOrComma c = true := by
  unfold priceAt at h
  split at h
  · next rest =>
    rcases her : eatRun digitOrComma rest with _ | ⟨g, r⟩
    · rw [her] at h; cases h
    · obtain ⟨hl, hne, hall⟩ := eatRun_sound her
      rcases g with _ | ⟨d, ds⟩
      · exact absurd rfl hne
      · exact ⟨d, ds ++ r, by rw [hl]; rfl,
          hall d (List.mem_cons_self _ _)⟩
  · cases h

/-- Shared tail of the bed/bath matchers: a whitespace run followed by one
of the unit keywords. -/
theorem kwTail_sound {kws : List (List Char)} {r : List Char}
    (h : kws.any (·.isPrefixOf (r.dropWhile isPySpace)) = true) :
    ∃ ws kw b, r = ws ++ kw ++ b ∧ (∀ x ∈ ws, isPySpace x = true) ∧
      kw ∈ kws := by
  obtain ⟨kw, hkwmem, hkwpre⟩ := List.any_eq_true.mp h
  obtain ⟨b, hb⟩ := isPrefixOf_ex kw _ hkwpre
  refine ⟨r.takeWhile isPySpace, kw, b, ?_,
    fun x hx => List.mem_takeWhile_imp hx, hkwmem⟩
  rw [List.append_assoc, ← hb, List.takeWhile_append_dropWhile]

/-- Soundness of the beds matcher. -/
theorem bedsAt_sound {l m : List Char} (h : bedsAt l = some m) :
    ∃ ws kw b, l = m ++ ws ++ kw ++ b ∧ m ≠ [] ∧
      (∀ x ∈ m, x.isDigit = true) ∧ (∀ x ∈ ws, isPySpace x = true) ∧
      kw ∈ ["Bedroom".data, "Bed".data, "BR".data] := by
  unfold bedsAt at h
  rcases her : eatRun Char.isDigit l with _ | ⟨g, r⟩
  · rw [her] at h; cases h
  · rw [her] at h
    simp only [Option.some_bind] at h
    by_cases hany : (["Bedroom".data, "Bed".data, "BR".data].any
        (·.isPrefixOf (r.dropWhile isPySpace))) = true
    · rw [if_pos hany] at h
      cases h
      obtain ⟨hl, hne, hall⟩ := eatRun_sound her
      obtain ⟨ws, kw, b, hr, hws, hkw⟩ := kwTail_sound hany
      exact ⟨ws, kw, b, by rw [hl, hr]; simp [List.append_assoc],
        hne, hall, hws, hkw⟩
    · rw [if_neg hany] at h; cases h

/-- Soundness of the fraction eater. -/
theorem eatFrac_sound (l : List Char) :
    l = (eatFrac l).1 ++ (eatFrac l).2 ∧
    ((eatFrac l).1 = [] ∨ ∃ fd, (eatFrac l).1 = '.' :: fd ∧ fd ≠ [] ∧
      ∀ x ∈ fd, x.isDigit = true) := by
  unfold eatFrac
  split
  · next r =>
    rcases her : eatRun Char.isDigit r with _ | ⟨g, rr⟩
    · exact ⟨rfl, Or.inl rfl⟩
    · obtain ⟨hl, hne, hall⟩ := eatRun_sound her
      exact ⟨by rw [List.cons_append, ← hl], Or.inr ⟨g, rfl, hne, hall⟩⟩
  · exact ⟨rfl, Or.inl rfl⟩

/-- Soundness of the baths matcher. -/
theorem bathsAt_sound {l m : List Char} (h : bathsAt l = some m) :
    ∃ d f ws kw b, l = d ++ f ++ ws ++ kw ++ b ∧ m = d ++ f ∧ d ≠ [] ∧
      (∀ x ∈ d, x.isDigit = true) ∧
      (f = [] ∨ ∃ fd, f = '.' :: fd ∧ fd ≠ [] ∧ ∀ x ∈ fd, x.isDigit = true) ∧
      (∀ x ∈ ws, isPySpace x = true) ∧
      kw ∈ ["Bathroom".data, "Bath".data, "BA".data] := by
  unfold bathsAt at h
  rcases her : eatRun Char.isDigit l with _ | ⟨g, r⟩
  · rw [her] at h; cases h
  · rw [her] at h
    simp only [Option.some_bind] at h
    by_cases hany : (["Bathroom".data, "Bath".data, "BA".data].any
        (·.isPrefixOf ((eatFrac r).2.dropWhile isPySpace))) = true
    · rw [if_pos hany] at h
      cases h
      obtain ⟨hl, hne, hall⟩ := eatRun_sound her
      obtain ⟨hfr, hfshape⟩ := eatFrac_sound r
      obtain ⟨ws, kw, b, hr2, hws, hkw⟩ := kwTail_sound hany
      refine ⟨g, (eatFrac r).1, ws, kw, b, ?_, rfl, hne, hall, hfshape,
        hws, hkw⟩
      conv_lhs => rw [hl, hfr, hr2]
      simp [List.append_assoc]
    · rw [if_neg hany] at h; cases h

/-- Soundness of the square-footage matcher. -/
theorem sqftAt_sound {l m : List Char} (h : sqftAt l = some m) :
    ∃ w1 w2 b, l = m ++ w1 ++ "sq".data ++ w2 ++ "ft".data ++ b ∧
      m ≠ [] ∧ (∀ x ∈ m, digitOrComma x = true) ∧
      (∀ x ∈ w1, isPySpace x = true) ∧ (∀ x ∈ w2, isPySpace x = true) := by
  unfold sqftAt at h
  rcases her : eatRun digitOrComma l with _ | ⟨g, r⟩
  · rw [her] at h; cases h
  · rw [her] at h
    simp only [Option.some_bind] at h
    rcases hsq : eatLit "sq".data (r.dropWhile isPySpace) with _ | l3
    · rw [hsq] at h; cases h
    · rw [hsq] at h
      simp only [Option.some_bind] at h
      rcases hft : eatLit "ft".data (l3.dropWhile isPySpace) with _ | l5
      · rw [hft] at h; cases h
      · rw [hft] at h
        cases h
        obtain ⟨hl, hne, hall⟩ := eatRun_sound her
        have hr : r = r.takeWhile isPySpace ++ ("sq".data ++ l3) := by
          rw [← eatLit_sound hsq, List.takeWhile_append_dropWhile]
        have hl3 : l3 = l3.takeWhile isPySpace ++ ("ft".data ++ l5) := by
          rw [← eatLit_sound hft, List.takeWhile_append_dropWhile]
        refine ⟨r.takeWhile isPySpace, l3.takeWhile isPySpace, l5, ?_, hne,
          hall, fun x hx => List.mem_takeWhile_imp hx,
          fun x hx => List.mem_takeWhile_imp hx⟩
        conv_lhs => rw [hl, hr, hl3]
        simp [List.append_assoc]

/-- C7: the three pattern extractors are total functions: `None` and the
empty string yield `None` (resp. a pair of `None`s), and on every other
input each extractor either returns `None` or returns a match that really
occurs in the text — absence of the pattern can only produce `None`, never
an error. -/
theorem claim7_extractors_total :
    (extract_price none = none ∧ extract_price (some "") = none ∧
     extract_beds_baths none = (none, none) ∧
     extract_beds_baths (some "") = (none, none) ∧
     extract_sqft none = none ∧ extract_sqft (some "") = none) ∧
    (∀ s : String, extract_price (some s) = none ∨
      ∃ m c a b, extract_price (some s) = some m ∧
        s.data = a ++ '$' :: c :: b ∧ digitOrComma c = true) ∧
    (∀ s : String, (extract_beds_baths (some s)).1 = none ∨
      ∃ m a d ws kw b, (extract_beds_baths (some s)).1 = some m ∧
        s.data = a ++ d ++ ws ++ kw ++ b ∧ d ≠ [] ∧
        (∀ x ∈ d, x.isDigit = true) ∧ (∀ x ∈ ws, isPySpace x = true) ∧
        kw ∈ ["Bedroom".data, "Bed".data, "BR".data]) ∧
    (∀ s : String, (extract_beds_baths (some s)).2 = none ∨
      ∃ m a d f ws kw b, (extract_beds_baths (some s)).2 = some m ∧
        s.data = a ++ d ++ f ++ ws ++ kw ++ b ∧ d ≠ [] ∧
        (∀ x ∈ d, x.isDigit = true) ∧
        (f = [] ∨ ∃ fd, f = '.' :: fd ∧ fd ≠ [] ∧
          ∀ x ∈ fd, x.isDigit = true) ∧
        (∀ x ∈ ws, isPySpace x = true) ∧
        kw ∈ ["Bathroom".data, "Bath".data, "BA".data]) ∧
    (∀ s : String, extract_sqft (some s) = none ∨
      ∃ m g a w1 w2 b, extract_sqft (some s) = some m ∧
        s.data.map Char.toLower
          = a ++ g ++ w1 ++ "sq".data ++ w2 ++ "ft".data ++ b ∧
        g ≠ [] ∧ (∀ x ∈ g, digitOrComma x = true) ∧
        (∀ x ∈ w1, isPySpace x = true) ∧
        (∀ x ∈ w2, isPySpace x = true)) := by
  refine ⟨⟨rfl, rfl, rfl, rfl, rfl, rfl⟩, ?_, ?_, ?_, ?_⟩
  · intro s
    by_cases he : s.data.isEmpty = true
    · left; simp [extract_price, he]
    · rcases hsr : searchWith priceAt s.data with _ | g
      · left; simp [extract_price, he, hsr]
      · right
        obtain ⟨a, r, hsplit, hat⟩ := searchWith_sound priceAt hsr
        obtain ⟨c, b, hr, hd⟩ := priceAt_sound hat
        refine ⟨String.mk g, c, a, b, ?_, ?_, hd⟩
        · simp [extract_price, he, hsr]
        · rw [hsplit, hr]
  · intro s
    by_cases he : s.data.isEmpty = true
    · left; simp [extract_beds_baths, he]
    · rcases hsr : searchWith bedsAt s.data with _ | g
      · left; simp [extract_beds_baths, he, hsr]
      · right
        obtain ⟨a, r, hsplit, hat⟩ := searchWith_sound bedsAt hsr
        obtain ⟨ws, kw, b, hr, hne, hdig, hws, hkw⟩ := bedsAt_sound hat
        refine ⟨String.mk g, a, g, ws, kw, b, ?_, ?_, hne, hdig, hws, hkw⟩
        · simp [extract_beds_baths, he, hsr]
        · rw [hsplit, hr]
          simp [List.append_assoc]
  · intro s
    by_cases he : s.data.isEmpty = true
    · left; simp [extract_beds_baths, he]
    · rcases hsr : searchWith bathsAt s.data with _ | g
      · left; simp [extract_beds_baths, he, hsr]
      · right
        obtain ⟨a, r, hsplit, hat⟩ := searchWith_sound bathsAt hsr
        obtain ⟨d, f, ws, kw, b, hr, hm, hne, hdig, hf, hws, hkw⟩ :=
          bathsAt_sound hat
        refine ⟨String.mk g, a, d, f, ws, kw, b, ?_, ?_, hne, hdig, hf,
          hws, hkw⟩
        · simp [extract_beds_baths, he, hsr]
        · rw [hsplit, hr]
          simp [List.append_assoc]
  · intro s
    by_cases he : s.data.isEmpty = true
    · left; simp [extract_sqft, he]
    · rcases hsr : searchWith sqftAt (s.data.map Char.toLower) with _ | g
      · left; simp [extract_sqft, he, hsr]
      · right
        obtain ⟨a, r, hsplit, hat⟩ := searchWith_sound sqftAt hsr
        obtain ⟨w1, w2, b, hr, hne, hdig, hw1, hw2⟩ := sqftAt_sound hat
        refine ⟨String.mk (g.filter (fun c => c != ',')), g, a, w1, w2, b,
          ?_, ?_, hne, hdig, hw1, hw2⟩
        · simp [extract_sqft, he, hsr]
        · rw [hsplit, hr]
          simp [List.append_assoc]
